import Mathlib

/-!
Verification of the position-synchronization core of the
gateway-sankhya-atualcargo repository, shallowly embedded in Lean 4.

Conventions of the embedding:
* JavaScript strings are Lean `String`s; `undefined`/absent values are
  modelled with `Option`; JS falsiness of a string (`!s`) is `s == ""`,
  of an optional value it also covers `none`.
* `Date` values produced by the date-fns `parse` calls are modelled as a
  civil-time record `DateTime` (year, month, day, hour, minute, second);
  date-fns `isAfter` compares the underlying time value, which for two
  dates built by the same local-time constructor is the lexicographic
  order on the fields, realised here by the monotone key `toKey`.
* date-fns `parse` with the format strings used in src/utils/dateTime.js
  matches each numeric token greedily (up to 4 digits for yyyy, up to 2
  for MM/dd/HH/mm/ss), requires the literal separators, requires the
  whole input to be consumed, and validates the field ranges (month
  1..12, day 1..days-in-month with leap years, hour 0..23, minute and
  second 0..59, year positive); an out-of-range field yields an invalid
  date, i.e. `none` here.
-/

namespace Gateway

/-- Civil date-time as produced by the date-fns parsers in
src/utils/dateTime.js (milliseconds are always 0 for these formats). -/
structure DateTime where
  year : Nat
  month : Nat
  day : Nat
  hour : Nat
  minute : Nat
  second : Nat
deriving DecidableEq, Repr

/-- Gregorian leap-year rule (as used by date-fns day-of-month validation). -/
def isLeapYear (y : Nat) : Bool :=
  (y % 4 == 0 && y % 100 != 0) || y % 400 == 0

/-- Number of days of month `mo` of year `y`. -/
def daysInMonth (y mo : Nat) : Nat :=
  if mo = 2 then (if isLeapYear y then 29 else 28)
  else if mo = 4 ∨ mo = 6 ∨ mo = 9 ∨ mo = 11 then 30
  else 31

/-- Field-range validation performed by the date-fns token parsers. -/
def validFields (y mo d h mi s : Nat) : Bool :=
  1 ≤ y && 1 ≤ mo && mo ≤ 12 && 1 ≤ d && d ≤ daysInMonth y mo &&
  h ≤ 23 && mi ≤ 59 && s ≤ 59

/-- Strictly monotone encoding of the lexicographic order on the civil
fields; mirrors the time value of the JS `Date` built from them.
(The radixes strictly bound each field: month ≤ 12 < 13, day ≤ 31 < 32,
hour ≤ 23 < 24, minute, second ≤ 59 < 60.) -/
def toKey (dt : DateTime) : Nat :=
  ((((dt.year * 13 + dt.month) * 32 + dt.day) * 24 + dt.hour) * 60 +
      dt.minute) * 60 + dt.second

/-- date-fns `isAfter a b`: the time value of `a` is strictly greater. -/
def isAfter (a b : DateTime) : Bool :=
  decide (toKey b < toKey a)

/-- Numeric value of a digit character. -/
def digitVal (c : Char) : Nat := c.toNat - 48

/-- Greedily consume up to `n` further digit characters, extending the
accumulator `acc`. -/
def takeDigitsAux : Nat → Nat → List Char → Nat × List Char
  | 0, acc, cs => (acc, cs)
  | _ + 1, acc, [] => (acc, [])
  | n + 1, acc, c :: cs =>
    if c.isDigit then takeDigitsAux n (acc * 10 + digitVal c) cs
    else (acc, c :: cs)

/-- A date-fns numeric token of maximal width `maxLen`: at least one
digit, greedily up to `maxLen` digits. -/
def takeDigits (maxLen : Nat) : List Char → Option (Nat × List Char)
  | [] => none
  | c :: cs =>
    if c.isDigit then some (takeDigitsAux (maxLen - 1) (digitVal c) cs)
    else none

/-- A literal character of the format string. -/
def lit (c : Char) : List Char → Option (List Char)
  | [] => none
  | x :: xs => if x = c then some xs else none

/-- The common time part of both formats: HH:mm:ss, consuming the rest
of the input. -/
def parseTimePart (cs : List Char) : Option (Nat × Nat × Nat) := do
  let (h, cs) ← takeDigits 2 cs
  let cs ← lit ':' cs
  let (mi, cs) ← takeDigits 2 cs
  let cs ← lit ':' cs
  let (s, cs) ← takeDigits 2 cs
  if cs.isEmpty then pure (h, mi, s) else none

/-- Range-validate the parsed fields; an invalid combination is an
invalid date (`none`), matching the date-fns validators. -/
def mkValid (y mo d h mi s : Nat) : Option DateTime :=
  if validFields y mo d h mi s then some ⟨y, mo, d, h, mi, s⟩ else none

/-- src/utils/dateTime.js parseAtualcargoDate: parse with format
yyyy-MM-dd HH:mm:ss, returning null (`none`) when invalid. -/
def parseAtualcargoDate (str : String) : Option DateTime := do
  let cs := str.toList
  let (y, cs) ← takeDigits 4 cs
  let cs ← lit '-' cs
  let (mo, cs) ← takeDigits 2 cs
  let cs ← lit '-' cs
  let (d, cs) ← takeDigits 2 cs
  let cs ← lit ' ' cs
  let (h, mi, s) ← parseTimePart cs
  mkValid y mo d h mi s

/-- src/utils/dateTime.js parseSankhyaDate: parse with format
ddMMyyyy HH:mm:ss, returning null (`none`) when invalid. -/
def parseSankhyaDate (str : String) : Option DateTime := do
  let cs := str.toList
  let (d, cs) ← takeDigits 2 cs
  let (mo, cs) ← takeDigits 2 cs
  let (y, cs) ← takeDigits 4 cs
  let cs ← lit ' ' cs
  let (h, mi, s) ← parseTimePart cs
  mkValid y mo d h mi s

/-- JS falsiness of the `lastDateStr` argument of isNewer: absent
(undefined/null) or the empty string. -/
def strFalsy : Option String → Bool
  | none => true
  | some s => s == ""

/-- src/utils/dateTime.js isNewer(newDateStr, lastDateStr):
if there is no old date any valid new date passes; otherwise both dates
must parse and the new one must be strictly after the old one. -/
def isNewer (newDateStr : String) (lastDateStr : Option String) : Bool :=
  let newDate := parseAtualcargoDate newDateStr
  if strFalsy lastDateStr then newDate.isSome
  else
    match newDate, parseSankhyaDate (lastDateStr.getD "") with
    | some nd, some ld => isAfter nd ld
    | _, _ => false

theorem parseSankhyaDate_empty : parseSankhyaDate "" = none := rfl

/-- C1: for candidate `t` and watermark `w` that both parse, `isNewer t w`
is true iff the parsed `t` is strictly later than the parsed `w`; in
particular it is false when they denote the same instant. -/
theorem isNewer_iff_strictly_later (t w : String) (dt dw : DateTime)
    (ht : parseAtualcargoDate t = some dt)
    (hw : parseSankhyaDate w = some dw) :
    (isNewer t (some w) = true ↔ toKey dw < toKey dt) ∧
    (toKey dt = toKey dw → isNewer t (some w) = false) := by
  have hw0 : (w == "") = false := by
    rcases h : w == "" with _ | _
    · rfl
    · exact absurd hw (by simp [eq_of_beq h, parseSankhyaDate_empty])
  have hval : isNewer t (some w) = isAfter dt dw := by
    simp only [isNewer, strFalsy, hw0, if_false, Bool.false_eq_true,
      Option.getD_some, ht, hw]
  constructor
  · rw [hval, isAfter]
    exact decide_eq_true_iff
  · intro heq
    rw [hval, isAfter, heq]
    simp

/-- Witness for C1 at concrete timestamps (strictly later, hence true). -/
theorem isNewer_iff_strictly_later_witness :
    isNewer "2025-11-07 15:38:12" (some "07112025 13:58:42") = true := by
  have h := isNewer_iff_strictly_later "2025-11-07 15:38:12"
    "07112025 13:58:42" ⟨2025, 11, 7, 15, 38, 12⟩ ⟨2025, 11, 7, 13, 58, 42⟩
    (by decide) (by decide)
  exact h.1.mpr (by decide)

/-- C2 counterexample: the candidate parses, the watermark is present
(non-empty) but unparsable, yet isNewer returns false — the code refuses
the candidate instead of accepting it ("Não arrisca inserir se alguma
data for inválida"). -/
theorem isNewer_corrupt_watermark_cex :
    Gateway.isNewer "2025-11-07 15:38:12" (some "corrupted") = false := by
  decide

/-- C2 (amended): for every candidate `t` and every present (non-empty)
watermark `w` that fails to parse, isNewer(t, w) returns false — the
corrupt baseline blocks the candidate. -/
theorem isNewer_corrupt_watermark_false (t w : String)
    (hne : w ≠ "") (hw : parseSankhyaDate w = none) :
    isNewer t (some w) = false := by
  have hw0 : (w == "") = false := by
    rcases h : w == "" with _ | _
    · rfl
    · exact absurd (eq_of_beq h) hne
  simp only [isNewer, strFalsy, hw0, if_false, Bool.false_eq_true,
    Option.getD_some, hw]
  rcases parseAtualcargoDate t with _ | _ <;> rfl

/-- Witness for C2 (amended) at a concrete corrupt watermark. -/
theorem isNewer_corrupt_watermark_false_witness :
    isNewer "2025-11-07 15:38:12" (some "31-02-9999") = false :=
  isNewer_corrupt_watermark_false "2025-11-07 15:38:12" "31-02-9999"
    (by decide) (by decide)

/-- C3: with an absent watermark isNewer(t, absent) is true exactly when
`t` parses as a valid timestamp; and an unparsable candidate is rejected
for every watermark — absent, unparsable or valid. -/
theorem isNewer_absent_and_invalid :
    (∀ t : String,
      (isNewer t none = true ↔ (parseAtualcargoDate t).isSome = true)) ∧
    (∀ (t : String) (w : Option String),
      parseAtualcargoDate t = none → isNewer t w = false) := by
  constructor
  · intro t
    simp only [isNewer, strFalsy, if_true]
  · intro t w ht
    rcases w with _ | s
    · simp only [isNewer, strFalsy, if_true, ht, Option.isSome_none]
    · simp only [isNewer, strFalsy, Option.getD_some, ht]
      rcases h : s == "" with _ | _
      · simp only [Bool.false_eq_true, if_false]
      · simp only [if_true, Option.isSome_none]

/-- Witness for C3 at a concrete unparsable candidate. -/
theorem isNewer_absent_and_invalid_witness :
    isNewer "not a date" (some "07112025 13:58:42") = false :=
  isNewer_absent_and_invalid.2 "not a date" (some "07112025 13:58:42")
    (by decide)

/-! ## The Sync Processor: src/sankhya/sankhyaProcessor.js

`processarPosicoes` receives the canonical records produced by the
mapper. The store lookups and the bulk inserts go through the Session
Gateway and may fail; an attempt's environment packages their outcomes.
Store keys (CODVEICULO / SEQUENCIA) are the numeric values returned in
the query rows, modelled as `Int`; the JS falsiness test
`if (!codveiculo)` on such a value is `key = 0` (with `undefined`,
i.e. a failed Map lookup, modelled as `none`). -/

/-- Canonical position record (output contract of sankhyaMapper.js as
consumed by the processor). The numeric payload fields only ride along
into the insert rows; they are modelled as integers. -/
structure PosRecord where
  identifier : String
  date : String
  insertValue : String
  lat : Int
  lon : Int
  speed : Int
  location : String
deriving DecidableEq, Repr

/-- JS `new Map(pairs).get(k)`: the value of the last pair whose key is
`k` (later entries of the constructor list overwrite earlier ones),
`undefined` (`none`) when no pair matches. -/
def jsMapGet {α β : Type} [BEq α] (pairs : List (α × β)) (k : α) :
    Option β :=
  (pairs.reverse.find? (fun p => p.1 == k)).map Prod.snd

/-- One iteration of the filtering loops of processarPosicoes (the
vehicle and the isca loop are the same algorithm on their respective
maps): resolve the internal key via the mapping; skip when the lookup is
falsy (`!codveiculo`: undefined or key 0); otherwise accept the record,
annotated with its key, iff its date is newer than the key's watermark. -/
def acceptRecord (mapping : List (String × Int))
    (history : List (Int × String)) (r : PosRecord) :
    Option (PosRecord × Int) :=
  match jsMapGet mapping r.identifier with
  | none => none
  | some key =>
    if key = 0 then none
    else if isNewer r.date (jsMapGet history key) then some (r, key)
    else none

/-- The filtering step of processarPosicoes over one record group. -/
def filterNewRecords (records : List PosRecord)
    (mapping : List (String × Int)) (history : List (Int × String)) :
    List (PosRecord × Int) :=
  records.filterMap (acceptRecord mapping history)

/-- Outcomes of the gateway calls of one attempt of processarPosicoes:
the four lookup queries (entity mappings and watermark histories for
both classes) and the two bulk-insert calls. -/
structure AttemptEnv where
  vehicleMapping : Except String (List (String × Int))
  iscaMapping : Except String (List (String × Int))
  vehicleHistory : Except String (List (Int × String))
  iscaHistory : Except String (List (Int × String))
  insertVehicleResult : Except String Unit
  insertIscaResult : Except String Unit

/-- insertVehicleHistory / insertIscaHistory short-circuit: an empty
batch returns without calling makeRequest; otherwise the call's outcome
decides. -/
def runInsert (res : Except String Unit)
    (batch : List (PosRecord × Int)) : Except String Unit :=
  if batch.isEmpty then .ok () else res

/-- The body of one attempt of processarPosicoes: the four lookups (a
Promise.all — a failure of any aborts the attempt), the filtering step,
then the two inserts (a second Promise.all). Returns the accepted
batches on full success. -/
def runAttempt (vehicles iscas : List PosRecord) (env : AttemptEnv) :
    Except String (List (PosRecord × Int) × List (PosRecord × Int)) :=
  match env.vehicleMapping, env.iscaMapping,
      env.vehicleHistory, env.iscaHistory with
  | .ok vm, .ok im, .ok vh, .ok ih =>
    let newVehicleRecords := filterNewRecords vehicles vm vh
    let newIscaRecords := filterNewRecords iscas im ih
    match runInsert env.insertVehicleResult newVehicleRecords,
        runInsert env.insertIscaResult newIscaRecords with
    | .ok _, .ok _ => .ok (newVehicleRecords, newIscaRecords)
    | .error e, _ => .error e
    | .ok _, .error e => .error e
  | .error e, _, _, _ => .error e
  | .ok _, .error e, _, _ => .error e
  | .ok _, .ok _, .error e, _ => .error e
  | .ok _, .ok _, .ok _, .error e => .error e

theorem runInsert_ok_unit (b : List (PosRecord × Int)) :
    runInsert (.ok ()) b = .ok () := by
  unfold runInsert
  split <;> rfl

theorem runAttempt_all_ok (vehicles iscas : List PosRecord)
    (vm im : List (String × Int)) (vh ih : List (Int × String)) :
    runAttempt vehicles iscas
        ⟨.ok vm, .ok im, .ok vh, .ok ih, .ok (), .ok ()⟩ =
      .ok (filterNewRecords vehicles vm vh, filterNewRecords iscas im ih) := by
  simp only [runAttempt, runInsert_ok_unit]

theorem jsMapGet_eq_some {α β : Type} [BEq α] [LawfulBEq α]
    {pairs : List (α × β)} {k : α} {v : β}
    (h : jsMapGet pairs k = some v) : ∃ p ∈ pairs, p.1 = k ∧ p.2 = v := by
  unfold jsMapGet at h
  rcases hf : pairs.reverse.find? (fun p => p.1 == k) with _ | q
  · rw [hf] at h
    exact absurd h (by simp)
  · rw [hf] at h
    have hq : q ∈ pairs := List.mem_reverse.mp (List.mem_of_find?_eq_some hf)
    have hk := List.find?_some hf
    refine ⟨q, hq, eq_of_beq hk, ?_⟩
    simpa using h

/-- C4: in an attempt of processarPosicoes the accepted records are
exactly the input positions whose identifier resolves in the fetched
mapping and whose date is newer than that key's watermark; an unresolved
position is dropped, and dropping raises no error: with all gateway
calls succeeding the attempt succeeds and writes exactly the filtered
batches. (Store keys are taken nonzero, as the store's sequence-valued
primary keys are.) -/
theorem processarPosicoes_filter_exact (records : List PosRecord)
    (mapping : List (String × Int)) (history : List (Int × String))
    (hkeys : ∀ p ∈ mapping, p.2 ≠ 0) :
    (∀ (r : PosRecord) (key : Int),
      (r, key) ∈ filterNewRecords records mapping history ↔
        r ∈ records ∧ jsMapGet mapping r.identifier = some key ∧
          isNewer r.date (jsMapGet history key) = true) ∧
    (∀ r ∈ records, jsMapGet mapping r.identifier = none →
      ∀ key : Int, (r, key) ∉ filterNewRecords records mapping history) ∧
    (∀ (vehicles iscas : List PosRecord) (vm im : List (String × Int))
        (vh ih : List (Int × String)),
      runAttempt vehicles iscas
          ⟨.ok vm, .ok im, .ok vh, .ok ih, .ok (), .ok ()⟩ =
        .ok (filterNewRecords vehicles vm vh,
          filterNewRecords iscas im ih)) := by
  refine ⟨?_, ?_, fun vehicles iscas vm im vh ih =>
    runAttempt_all_ok vehicles iscas vm im vh ih⟩
  · intro r key
    rw [filterNewRecords, List.mem_filterMap]
    constructor
    · rintro ⟨a, ha, hacc⟩
      unfold acceptRecord at hacc
      rcases hv : jsMapGet mapping a.identifier with _ | k <;> rw [hv] at hacc
      · simp at hacc
      · by_cases hk0 : k = 0
        · simp [hk0] at hacc
        · rcases hn : isNewer a.date (jsMapGet history k) with _ | _ <;>
            simp [hk0, hn] at hacc
          obtain ⟨rfl, rfl⟩ := hacc
          exact ⟨ha, hv, hn⟩
    · rintro ⟨hr, hv, hn⟩
      refine ⟨r, hr, ?_⟩
      have hk0 : key ≠ 0 := by
        obtain ⟨p, hp, _, hpv⟩ := jsMapGet_eq_some hv
        exact hpv ▸ hkeys p hp
      unfold acceptRecord
      rw [hv]
      simp [hk0, hn]
  · intro r _ hnone key hmem
    obtain ⟨a, _, hacc⟩ := List.mem_filterMap.mp hmem
    unfold acceptRecord at hacc
    rcases hv : jsMapGet mapping a.identifier with _ | k <;> rw [hv] at hacc
    · simp at hacc
    · have ha : a = r := by
        by_cases hk0 : k = 0
        · simp [hk0] at hacc
        · rcases hn : isNewer a.date (jsMapGet history k) with _ | _ <;>
            simp [hk0, hn] at hacc
          exact hacc.1
      rw [ha, hnone] at hv
      exact Option.noConfusion hv

/-- Witness for C4: a resolvable, strictly newer record is accepted with
its resolved key. -/
theorem processarPosicoes_filter_exact_witness :
    (⟨"ABC1234", "2025-11-07 15:38:12", "ABC1234", 10, 20, 30, "loc"⟩,
        (5 : Int)) ∈
      filterNewRecords
        [⟨"ABC1234", "2025-11-07 15:38:12", "ABC1234", 10, 20, 30, "loc"⟩]
        [("ABC1234", 5)] [(5, "07112025 13:58:42")] :=
  ((processarPosicoes_filter_exact
        [⟨"ABC1234", "2025-11-07 15:38:12", "ABC1234", 10, 20, 30, "loc"⟩]
        [("ABC1234", 5)] [(5, "07112025 13:58:42")]
        (by decide)).1
      ⟨"ABC1234", "2025-11-07 15:38:12", "ABC1234", 10, 20, 30, "loc"⟩
      5).mpr (by decide)

/-- C6: with a fixed store response (same mappings, same watermark
histories, succeeding inserts), processarPosicoes computes the same
accepted vehicle and isca sets on permuted inputs. -/
theorem processarPosicoes_order_independent
    (vs vs2 iscs iscs2 : List PosRecord) (vm im : List (String × Int))
    (vh ih : List (Int × String)) (hv : vs.Perm vs2)
    (hi : iscs.Perm iscs2) :
    ∃ nv ni nv2 ni2,
      runAttempt vs iscs
          ⟨.ok vm, .ok im, .ok vh, .ok ih, .ok (), .ok ()⟩ = .ok (nv, ni) ∧
      runAttempt vs2 iscs2
          ⟨.ok vm, .ok im, .ok vh, .ok ih, .ok (), .ok ()⟩ =
        .ok (nv2, ni2) ∧
      nv.Perm nv2 ∧ ni.Perm ni2 :=
  ⟨_, _, _, _, runAttempt_all_ok vs iscs vm im vh ih,
    runAttempt_all_ok vs2 iscs2 vm im vh ih,
    hv.filterMap _, hi.filterMap _⟩

/-- Witness for C6 on a concrete two-element permutation. -/
theorem processarPosicoes_order_independent_witness :
    ∃ nv ni nv2 ni2,
      runAttempt
          [⟨"AAA1111", "2025-11-07 15:38:12", "AAA1111", 1, 2, 3, "x"⟩,
            ⟨"BBB2222", "2025-11-07 15:39:00", "BBB2222", 4, 5, 6, "y"⟩]
          [] ⟨.ok [("AAA1111", 1), ("BBB2222", 2)], .ok [], .ok [],
            .ok [], .ok (), .ok ()⟩ = .ok (nv, ni) ∧
      runAttempt
          [⟨"BBB2222", "2025-11-07 15:39:00", "BBB2222", 4, 5, 6, "y"⟩,
            ⟨"AAA1111", "2025-11-07 15:38:12", "AAA1111", 1, 2, 3, "x"⟩]
          [] ⟨.ok [("AAA1111", 1), ("BBB2222", 2)], .ok [], .ok [],
            .ok [], .ok (), .ok ()⟩ = .ok (nv2, ni2) ∧
      nv.Perm nv2 ∧ ni.Perm ni2 :=
  processarPosicoes_order_independent _ _ _ _ _ _ _ _ (by decide) (by decide)

/-! ## The Session Gateway: src/sankhya/sankhyaApi.js

The HTTP transport is abstracted as oracles: a query function receives
the makeRequest outcome it would observe; makeRequest itself receives
the login outcomes and the two decoded store responses it can consume.
Every definition also returns the trace of calls it issued, so the
frame claims (no call on empty input, exactly one retry) are equalities
on traces. Transport-level rejections (network errors, timeouts)
propagate unchanged through both and are not modelled further. -/

/-- One entry of the fieldsMetadata list of a query response. -/
structure FieldMeta where
  name : String
deriving DecidableEq, Repr

/-- The decoded responseBody of a DbExplorerSP.executeQuery call. Both
members can be absent (the code guards with `?.` and `|| []`). -/
structure QueryResponseBody (γ : Type) where
  fieldsMetadata : Option (List FieldMeta)
  rows : Option (List (List γ))
deriving DecidableEq, Repr

/-- JS object assignment obj[k] = v: overwrite the value of an existing
key in place, otherwise append (JS objects preserve insertion order). -/
def setField {γ : Type} : List (String × γ) → String → γ → List (String × γ)
  | [], k, v => [(k, v)]
  | q :: rest, k, v =>
    if q.1 == k then (q.1, v) :: rest else q :: setField rest k v

/-- src/sankhya/sankhyaApi.js formatQueryResponse: project each
positional row into an object keyed by the returned column names;
column i is assigned row[i] (`undefined`, i.e. `none`, when the row is
shorter than the column list; extra row elements are never read). -/
def formatQueryResponse {γ : Type} (responseBody : QueryResponseBody γ) :
    List (List (String × Option γ)) :=
  let fields :=
    (responseBody.fieldsMetadata.map (fun l => l.map FieldMeta.name)).getD []
  let rows := responseBody.rows.getD []
  rows.map (fun row =>
    fields.enum.foldl (fun obj p => setField obj p.2 (row.get? p.1)) [])

theorem setField_of_not_mem {γ : Type} (obj : List (String × γ))
    (k : String) (v : γ) (h : ∀ q ∈ obj, q.1 ≠ k) :
    setField obj k v = obj ++ [(k, v)] := by
  induction obj with
  | nil => rfl
  | cons q rest ih =>
    have hq : (q.1 == k) = false := by
      simpa using h q (List.mem_cons_self q rest)
    simp only [setField, hq, Bool.false_eq_true, if_false, List.cons_append,
      List.cons.injEq, true_and]
    exact ih (fun p hp => h p (List.mem_cons_of_mem q hp))

theorem foldl_setField_eq_map {γ : Type} (f : Nat → Option γ)
    (ps : List (Nat × String)) :
    ∀ acc : List (String × Option γ), (ps.map Prod.snd).Nodup →
      (∀ q ∈ acc, ∀ p ∈ ps, q.1 ≠ p.2) →
      ps.foldl (fun obj p => setField obj p.2 (f p.1)) acc =
        acc ++ ps.map (fun p => (p.2, f p.1)) := by
  induction ps with
  | nil =>
    intro acc _ _
    simp
  | cons p ps ih =>
    intro acc hnd hdisj
    rw [List.map_cons, List.nodup_cons] at hnd
    obtain ⟨hp, htail⟩ := hnd
    simp only [List.foldl_cons]
    rw [setField_of_not_mem _ _ _
      (fun q hq => hdisj q hq p (List.mem_cons_self p ps))]
    rw [ih (acc ++ [(p.2, f p.1)]) htail ?_]
    · simp
    · intro q hq t ht
      rcases List.mem_append.mp hq with h | h
      · exact hdisj q h t (List.mem_cons_of_mem p ht)
      · have hq1 : q.1 = p.2 := by
          simp only [List.mem_singleton] at h
          rw [h]
        rw [hq1]
        intro hEq
        exact hp (hEq ▸ List.mem_map_of_mem Prod.snd ht)

/-- C10 counterexample: a row shorter than the column list does not make
formatQueryResponse fail — the missing column is projected to
`undefined` (`none`) and a normal object list is returned. -/
theorem formatQueryResponse_mismatch_cex :
    formatQueryResponse (γ := Int)
        ⟨some [⟨"CODVEICULO"⟩, ⟨"PLACA"⟩], some [[7]]⟩ =
      [[("CODVEICULO", some 7), ("PLACA", none)]] := by
  rfl

/-- C10 (amended): formatQueryResponse projects each positional row into
an object whose named fields come from the returned column list, column
i being mapped to row element i; on a column/row length mismatch it does
not fail: missing elements become `undefined` and extra elements are
ignored. (Stated for pairwise distinct column names, as returned by a
SQL projection.) -/
theorem formatQueryResponse_projects {γ : Type} (meta : List FieldMeta)
    (rows : List (List γ))
    (hnd : (meta.map FieldMeta.name).Nodup) :
    formatQueryResponse ⟨some meta, some rows⟩ =
      rows.map (fun row =>
        (meta.map FieldMeta.name).enum.map (fun p => (p.2, row.get? p.1))) := by
  unfold formatQueryResponse
  simp only [Option.map_some', Option.getD_some]
  refine List.map_congr_left (fun row _ => ?_)
  rw [foldl_setField_eq_map (fun i => row.get? i)
    (meta.map FieldMeta.name).enum []
    (by rw [List.enum_map_snd]; exact hnd) (by simp)]
  simp

/-- Witness for C10 (amended) at a concrete two-column response with one
full row and one short row. -/
theorem formatQueryResponse_projects_witness :
    formatQueryResponse (γ := Int)
        ⟨some [⟨"CODVEICULO"⟩, ⟨"PLACA"⟩], some [[1, 2], [3]]⟩ =
      [[("CODVEICULO", some 1), ("PLACA", some 2)],
        [("CODVEICULO", some 3), ("PLACA", none)]] := by
  rw [formatQueryResponse_projects [⟨"CODVEICULO"⟩, ⟨"PLACA"⟩]
    [[1, 2], [3]] (by decide)]
  rfl

/-- src/sankhya/sankhyaApi.js getVehiclesByPlate: an empty plate list
short-circuits to an empty result without touching makeRequest (so no
login and no store query happens); otherwise one
DbExplorerSP.executeQuery request is issued and its rows are projected
by formatQueryResponse. The second component is the trace of
(serviceName, sql) requests issued through makeRequest; `mk` is the
makeRequest oracle. -/
def getVehiclesByPlate {γ : Type}
    (mk : String → String → Except String (QueryResponseBody γ))
    (plates : List String) :
    Except String (List (List (String × Option γ))) × List (String × String) :=
  if plates.length = 0 then (.ok [], [])
  else
    let inClause :=
      String.intercalate "," (plates.map (fun p => "\x27" ++ p.trim ++ "\x27"))
    let sql :=
      "SELECT VEI.CODVEICULO, VEI.PLACA FROM TGFVEI VEI WHERE VEI.PLACA IN ("
        ++ inClause ++ ")"
    match mk "DbExplorerSP.executeQuery" sql with
    | .error e => (.error e, [("DbExplorerSP.executeQuery", sql)])
    | .ok body =>
      (.ok (formatQueryResponse body), [("DbExplorerSP.executeQuery", sql)])

/-- src/sankhya/sankhyaApi.js getIscasByNum: same shape as
getVehiclesByPlate over AD_CADISCA, with the empty-list short-circuit. -/
def getIscasByNum {γ : Type}
    (mk : String → String → Except String (QueryResponseBody γ))
    (iscaNumbers : List String) :
    Except String (List (List (String × Option γ))) × List (String × String) :=
  if iscaNumbers.length = 0 then (.ok [], [])
  else
    let inClause :=
      String.intercalate ","
        (iscaNumbers.map (fun n => "\x27" ++ n.trim ++ "\x27"))
    let sql :=
      "SELECT SCA.SEQUENCIA, SCA.NUMISCA FROM AD_CADISCA SCA WHERE SCA.NUMISCA IN ("
        ++ inClause ++ ") AND SCA.ATIVO = \x27S\x27"
    match mk "DbExplorerSP.executeQuery" sql with
    | .error e => (.error e, [("DbExplorerSP.executeQuery", sql)])
    | .ok body =>
      (.ok (formatQueryResponse body), [("DbExplorerSP.executeQuery", sql)])

/-- C5: on an empty identifier list, getVehiclesByPlate and getIscasByNum
each return an empty result with an empty request trace — makeRequest is
never consulted, so no login and no store query occurs, for every
possible gateway behavior `mk`. -/
theorem empty_identifiers_no_gateway_call {γ : Type}
    (mk : String → String → Except String (QueryResponseBody γ)) :
    getVehiclesByPlate mk [] = (.ok [], []) ∧
    getIscasByNum mk [] = (.ok [], []) :=
  ⟨rfl, rfl⟩

/-- A decoded Sankhya service response as seen by makeRequest. -/
structure SankhyaResp (ρ : Type) where
  status : String
  statusMessage : Option String
  responseBody : ρ
deriving DecidableEq, Repr

/-- A POST issued by makeRequest through the axios client: the service
name and payload of the call and the JSESSIONID cookie attached. -/
structure PostEv (π : Type) where
  serviceName : String
  requestBody : π
  cookie : String
deriving DecidableEq, Repr

/-- `await login()` at the top of makeRequest, as seen by a single
sequential call: with a session present it is a no-op; otherwise the
login attempt's outcome decides (its failure propagates). -/
def ensureSession (sid0 : Option String)
    (loginRes : Except String String) : Except String String :=
  match sid0 with
  | some s => .ok s
  | none => loginRes

/-- The session-expiry test of makeRequest:
status 3 with message "Não autorizado.". -/
def unauthorized {ρ : Type} (r : SankhyaResp ρ) : Bool :=
  r.status == "3" && r.statusMessage == some "Não autorizado."

/-- src/sankhya/sankhyaApi.js makeRequest, instrumented: given the
initial jsessionid, the outcomes of a login at entry and of the relogin
on the 401 path, and the two store responses it can consume, return the
call's result, the trace of POSTs issued, and the final jsessionid.
The unauthorized branch clears the token, re-authenticates, repeats the
identical request once with the new cookie, and hard-fails on a second
non-success; any other non-success fails at once with the store's
status message. -/
def makeRequest {π ρ : Type} (serviceName : String) (requestBody : π)
    (sid0 : Option String) (loginEntry loginRetry : Except String String)
    (resp1 resp2 : SankhyaResp ρ) :
    Except String ρ × List (PostEv π) × Option String :=
  match ensureSession sid0 loginEntry with
  | .error e => (.error e, [], none)
  | .ok sid =>
    let ev1 : PostEv π := ⟨serviceName, requestBody, sid⟩
    if resp1.status == "1" then (.ok resp1.responseBody, [ev1], some sid)
    else if unauthorized resp1 then
      match loginRetry with
      | .error e => (.error e, [ev1], none)
      | .ok sid2 =>
        let ev2 : PostEv π := ⟨serviceName, requestBody, sid2⟩
        if resp2.status == "1" then
          (.ok resp2.responseBody, [ev1, ev2], some sid2)
        else
          (.error ("Falha na requisição Sankhya (" ++ serviceName ++
              ") após re-autenticar: " ++ resp2.statusMessage.getD "undefined"),
            [ev1, ev2], some sid2)
    else
      (.error ("Erro na requisição Sankhya (" ++ serviceName ++ "): " ++
          resp1.statusMessage.getD "Erro desconhecido"),
        [ev1], some sid)

/-- C7: behavior of makeRequest on non-success store responses. On the
unauthorized response it re-authenticates and repeats the identical call
(same service, same body) exactly once — two POSTs in the trace, the
second under the new session — returning the body on success and a hard
error on a second non-success; on any other non-success it errors at
once, carrying the store's status message, with a single POST issued. -/
theorem makeRequest_non_success_behavior {π ρ : Type} (serviceName : String)
    (requestBody : π) (sid : String) (loginEntry : Except String String)
    (loginRetry : Except String String) (resp1 resp2 : SankhyaResp ρ) :
    (∀ sid2, loginRetry = .ok sid2 → unauthorized resp1 = true →
      resp2.status = "1" →
      makeRequest serviceName requestBody (some sid) loginEntry loginRetry
          resp1 resp2 =
        (.ok resp2.responseBody,
          [⟨serviceName, requestBody, sid⟩, ⟨serviceName, requestBody, sid2⟩],
          some sid2)) ∧
    (∀ sid2, loginRetry = .ok sid2 → unauthorized resp1 = true →
      resp2.status ≠ "1" →
      makeRequest serviceName requestBody (some sid) loginEntry loginRetry
          resp1 resp2 =
        (.error ("Falha na requisição Sankhya (" ++ serviceName ++
            ") após re-autenticar: " ++ resp2.statusMessage.getD "undefined"),
          [⟨serviceName, requestBody, sid⟩, ⟨serviceName, requestBody, sid2⟩],
          some sid2)) ∧
    (resp1.status ≠ "1" → unauthorized resp1 = false →
      makeRequest serviceName requestBody (some sid) loginEntry loginRetry
          resp1 resp2 =
        (.error ("Erro na requisição Sankhya (" ++ serviceName ++ "): " ++
            resp1.statusMessage.getD "Erro desconhecido"),
          [⟨serviceName, requestBody, sid⟩], some sid)) := by
  refine ⟨?_, ?_, ?_⟩
  · intro sid2 hlr hu h2
    have hu2 := hu
    simp only [unauthorized, Bool.and_eq_true, beq_iff_eq] at hu2
    have h3 : resp1.status = "3" := hu2.1
    simp [makeRequest, ensureSession, h3, hu, hlr, h2]
  · intro sid2 hlr hu h2
    have hu2 := hu
    simp only [unauthorized, Bool.and_eq_true, beq_iff_eq] at hu2
    have h3 : resp1.status = "3" := hu2.1
    simp [makeRequest, ensureSession, h3, hu, hlr, h2]
  · intro h1 hu
    simp [makeRequest, ensureSession, h1, hu]

/-- Witness for C7: a concrete unauthorized response followed by a
successful retry under the new session. -/
theorem makeRequest_non_success_behavior_witness :
    makeRequest "DatasetSP.save" "payload" (some "oldsession")
        (Except.ok "oldsession") (Except.ok "newsession")
        (⟨"3", some "Não autorizado.", "x"⟩ : SankhyaResp String)
        ⟨"1", none, "body"⟩ =
      (.ok "body",
        [⟨"DatasetSP.save", "payload", "oldsession"⟩,
          ⟨"DatasetSP.save", "payload", "newsession"⟩],
        some "newsession") :=
  (makeRequest_non_success_behavior "DatasetSP.save" "payload" "oldsession"
      (Except.ok "oldsession") (Except.ok "newsession")
      ⟨"3", some "Não autorizado.", "x"⟩ ⟨"1", none, "body"⟩).1
    "newsession" rfl (by decide) rfl

/-! ## Single-flight login

src/sankhya/sankhyaApi.js keeps two module-level variables, `jsessionid`
and `loginPromise`. The body of login() contains no await before it
publishes `loginPromise`, so under the JS run-to-completion model each
call to login() is one atomic step on this state; performLogin's
settlement is a second atomic step. Promises are identified by numeric
ids: callers returning the same id await the same in-flight attempt and
observe its single outcome (value or error). -/

/-- The shared session state of the gateway module. -/
structure SessionSt where
  jsessionid : Option String
  loginPromise : Option Nat
deriving DecidableEq, Repr

/-- JS truthiness of the `jsessionid` variable. -/
def jsTruthyStr : Option String → Bool
  | none => false
  | some s => !(s == "")

/-- One call to login(): with a live session and no in-flight login it
returns immediately (no promise, no network call); with a login in
flight it returns that same promise; otherwise it starts performLogin,
publishes the fresh promise and returns it. The last component counts
the performLogin network attempts started by this call. -/
def loginCall (fresh : Nat) (s : SessionSt) :
    Option Nat × SessionSt × Nat :=
  if jsTruthyStr s.jsessionid && s.loginPromise.isNone then (none, s, 0)
  else
    match s.loginPromise with
    | some p => (some p, s, 0)
    | none => (some fresh, ⟨s.jsessionid, some fresh⟩, 1)

/-- `n` calls to login() arriving before the in-flight attempt settles:
the promises handed out, the final state, and the total number of
performLogin network attempts started. -/
def loginCalls (fresh : Nat) (s : SessionSt) :
    Nat → List (Option Nat) × SessionSt × Nat
  | 0 => ([], s, 0)
  | n + 1 =>
    let r1 := loginCall fresh s
    let rs := loginCalls fresh r1.2.1 n
    (r1.1 :: rs.1, rs.2.1, r1.2.2 + rs.2.2)

/-- Settlement of performLogin: on success the token is stored, on
failure the stale token is cleared; either way the in-flight promise
slot is cleared (the `finally`). The settled promise's outcome is what
every caller holding its id observes. -/
def settleLogin (outcome : Except String String) (_s : SessionSt) :
    SessionSt :=
  match outcome with
  | .ok tok => ⟨some tok, none⟩
  | .error _ => ⟨none, none⟩

theorem loginCalls_inflight (fresh m : Nat) :
    loginCalls fresh ⟨none, some fresh⟩ m =
      (List.replicate m (some fresh), ⟨none, some fresh⟩, 0) := by
  induction m with
  | zero => rfl
  | succ k ih =>
    simp [loginCalls, loginCall, jsTruthyStr, ih, List.replicate_succ]

/-- C8: starting with no session and no in-flight login, `n ≥ 1`
concurrent calls to login() all await one and the same promise and
exactly one performLogin network attempt is started; when that attempt
settles with success the shared token is set, and when it settles with
failure the token is cleared — each waiter of the single shared promise
observing that same outcome. -/
theorem login_single_flight (n fresh : Nat) (hn : 1 ≤ n) :
    loginCalls fresh ⟨none, none⟩ n =
      (List.replicate n (some fresh), ⟨none, some fresh⟩, 1) ∧
    (∀ tok, settleLogin (.ok tok) ⟨none, some fresh⟩ = ⟨some tok, none⟩) ∧
    (∀ e, settleLogin (.error e) ⟨none, some fresh⟩ = ⟨none, none⟩) := by
  refine ⟨?_, fun tok => rfl, fun e => rfl⟩
  rcases n with _ | m
  · exact absurd hn (by decide)
  · simp [loginCalls, loginCall, jsTruthyStr, loginCalls_inflight,
      List.replicate_succ]

/-- Witness for C8 with three concurrent callers. -/
theorem login_single_flight_witness :
    loginCalls 0 ⟨none, none⟩ 3 =
      (List.replicate 3 (some 0), ⟨none, some 0⟩, 1) :=
  (login_single_flight 3 0 (by decide)).1

/-! ## The retry loop of processarPosicoes -/

/-- Observable events of one call to processarPosicoes: the start of an
attempt (numbered from 1) and the retry-delay sleeps between attempts. -/
inductive Ev where
  | attempt (n : Nat)
  | wait (ms : Nat)
deriving DecidableEq, Repr

/-- Whether attempt `a` of the cycle succeeds: its four lookups, the
filtering and both batch inserts all complete (runAttempt over that
attempt's gateway outcomes returns ok). -/
def attemptOk (vehicles iscas : List PosRecord) (envs : Nat → AttemptEnv)
    (a : Nat) : Bool :=
  match runAttempt vehicles iscas (envs a) with
  | .ok _ => true
  | .error _ => false

/-- The retry loop of processarPosicoes from attempt `a` with `r`
attempts still allowed: run the attempt; return on success; on failure,
if attempt < sankhyaRetryLimit (some attempt remains) sleep
sankhyaRetryDelay and continue, else log and give up — returning
normally (the data is discarded) in every case. -/
def loopFrom (delay : Nat) (step : Nat → Bool) : Nat → Nat → List Ev
  | _, 0 => []
  | a, r + 1 =>
    Ev.attempt a ::
      (if step a then []
       else if r = 0 then []
       else Ev.wait delay :: loopFrom delay step (a + 1) r)

/-- The trace of `r` consecutive failed non-final attempts starting at
attempt `a`: each attempt is followed by one retry-delay sleep. -/
def failTrace (delay : Nat) : Nat → Nat → List Ev
  | _, 0 => []
  | a, r + 1 => Ev.attempt a :: Ev.wait delay :: failTrace delay (a + 1) r

/-- src/sankhya/sankhyaProcessor.js processarPosicoes as the event trace
of one cycle: nothing on empty input, otherwise the retry loop starting
at attempt 1 with sankhyaRetryLimit attempts available. -/
def processarPosicoes (limit delay : Nat)
    (vehicles iscas : List PosRecord) (envs : Nat → AttemptEnv) :
    List Ev :=
  if vehicles.isEmpty && iscas.isEmpty then []
  else loopFrom delay (attemptOk vehicles iscas envs) 1 limit

theorem loopFrom_attempt_bound (delay : Nat) (step : Nat → Bool) :
    ∀ (r a n : Nat), Ev.attempt n ∈ loopFrom delay step a r →
      a ≤ n ∧ n < a + r := by
  intro r
  induction r with
  | zero =>
    intro a n h
    exact absurd h (by simp [loopFrom])
  | succ r ih =>
    intro a n h
    rw [loopFrom] at h
    rcases List.mem_cons.mp h with h1 | h2
    · obtain rfl : n = a := by
        cases h1
        rfl
      omega
    · by_cases hs : step a
      · rw [if_pos hs] at h2
        exact absurd h2 (by simp)
      · rw [if_neg hs] at h2
        by_cases hr : r = 0
        · rw [if_pos hr] at h2
          exact absurd h2 (by simp)
        · rw [if_neg hr] at h2
          rcases List.mem_cons.mp h2 with h3 | h4
          · exact absurd h3 (by simp)
          · have := ih (a + 1) n h4
            omega

theorem loopFrom_success (delay : Nat) (step : Nat → Bool) :
    ∀ (j a r : Nat), j < r →
      (∀ k, a ≤ k → k < a + j → step k = false) → step (a + j) = true →
      loopFrom delay step a r =
        failTrace delay a j ++ [Ev.attempt (a + j)] := by
  intro j
  induction j with
  | zero =>
    intro a r hr hfail hsucc
    obtain ⟨r2, rfl⟩ : ∃ r2, r = r2 + 1 := ⟨r - 1, by omega⟩
    rw [loopFrom, if_pos (by simpa using hsucc)]
    simp [failTrace]
  | succ j ih =>
    intro a r hr hfail hsucc
    obtain ⟨r2, rfl⟩ : ∃ r2, r = r2 + 1 := ⟨r - 1, by omega⟩
    have hfa : step a = false := hfail a le_rfl (by omega)
    have hr2 : r2 ≠ 0 := by omega
    rw [loopFrom, if_neg (by simp [hfa]), if_neg hr2]
    have harith : a + 1 + j = a + (j + 1) := by omega
    rw [ih (a + 1) r2 (by omega)
      (fun k hk1 hk2 => hfail k (by omega) (by omega))
      (by rw [harith]; exact hsucc)]
    simp [failTrace, harith]

theorem loopFrom_all_fail (delay : Nat) (step : Nat → Bool) :
    ∀ (r a : Nat), (∀ k, a ≤ k → k < a + r → step k = false) →
      loopFrom delay step a (r + 1) =
        failTrace delay a r ++ [Ev.attempt (a + r)] := by
  intro r
  induction r with
  | zero =>
    intro a _
    rw [loopFrom]
    by_cases hs : step a
    · rw [if_pos hs]
      simp [failTrace]
    · rw [if_neg hs, if_pos rfl]
      simp [failTrace]
  | succ r ih =>
    intro a hfail
    have hfa : step a = false := hfail a le_rfl (by omega)
    have harith : a + 1 + r = a + (r + 1) := by omega
    rw [loopFrom, if_neg (by simp [hfa]), if_neg (by omega)]
    rw [ih (a + 1) (fun k hk1 hk2 => hfail k (by omega) (by omega))]
    simp [failTrace, harith]

/-- C9: the retry policy of processarPosicoes. With non-empty input:
every attempt run is numbered between 1 and sankhyaRetryLimit; if the
first j attempts fail and attempt j+1 (within the limit) fully succeeds,
the cycle is exactly j failed attempts each followed by one
sankhyaRetryDelay sleep and then the successful attempt, after which it
returns normally with nothing further; if all sankhyaRetryLimit attempts
fail, the cycle is the limit attempts with a sleep after each non-final
one, and it returns normally without raising — no event follows the
final attempt, the cycle's observations are discarded. -/
theorem processarPosicoes_retry_policy (limit delay : Nat)
    (vehicles iscas : List PosRecord) (envs : Nat → AttemptEnv)
    (hne : (vehicles.isEmpty && iscas.isEmpty) = false) :
    (∀ n, Ev.attempt n ∈ processarPosicoes limit delay vehicles iscas envs →
      1 ≤ n ∧ n ≤ limit) ∧
    (∀ j, j + 1 ≤ limit →
      (∀ k, 1 ≤ k → k ≤ j → attemptOk vehicles iscas envs k = false) →
      attemptOk vehicles iscas envs (j + 1) = true →
      processarPosicoes limit delay vehicles iscas envs =
        failTrace delay 1 j ++ [Ev.attempt (j + 1)]) ∧
    ((∀ k, 1 ≤ k → k ≤ limit → attemptOk vehicles iscas envs k = false) →
      1 ≤ limit →
      processarPosicoes limit delay vehicles iscas envs =
        failTrace delay 1 (limit - 1) ++ [Ev.attempt limit]) := by
  refine ⟨?_, ?_, ?_⟩
  · intro n h
    rw [processarPosicoes, if_neg (by simp [hne])] at h
    have := loopFrom_attempt_bound delay (attemptOk vehicles iscas envs)
      limit 1 n h
    omega
  · intro j hj hfail hsucc
    rw [processarPosicoes, if_neg (by simp [hne])]
    have harith : 1 + j = j + 1 := by omega
    rw [loopFrom_success delay (attemptOk vehicles iscas envs) j 1 limit
      (by omega) (fun k hk1 hk2 => hfail k hk1 (by omega))
      (by rw [harith]; exact hsucc), harith]
  · intro hfail hlim
    obtain ⟨m, rfl⟩ : ∃ m, limit = m + 1 := ⟨limit - 1, by omega⟩
    rw [processarPosicoes, if_neg (by simp [hne])]
    rw [loopFrom_all_fail delay (attemptOk vehicles iscas envs) m 1
      (fun k hk1 hk2 => hfail k hk1 (by omega))]
    have harith : 1 + m = m + 1 := by omega
    rw [harith]
    simp

/-- A concrete canonical record for the C9 witness. -/
def demoRecord : PosRecord :=
  ⟨"ABC1234", "2025-11-07 15:38:12", "ABC1234", 1, 2, 3, "loc"⟩

/-- A concrete attempt environment for the C9 witness: the gateway times
out on the first two attempts and works from the third on. -/
def demoEnvs : Nat → AttemptEnv := fun n =>
  if n < 3 then
    ⟨.error "timeout", .error "timeout", .error "timeout",
      .error "timeout", .error "timeout", .error "timeout"⟩
  else ⟨.ok [("ABC1234", 5)], .ok [], .ok [], .ok [], .ok (), .ok ()⟩

/-- Witness for C9: limit 3, two failures then success — two sleeps, the
successful third attempt ends the cycle. -/
theorem processarPosicoes_retry_policy_witness :
    processarPosicoes 3 60000 [demoRecord] [] demoEnvs =
      failTrace 60000 1 2 ++ [Ev.attempt 3] :=
  (processarPosicoes_retry_policy 3 60000 [demoRecord] [] demoEnvs
      (by decide)).2.1 2 (by decide)
    (by
      intro k h1 h2
      rcases (by omega : k = 1 ∨ k = 2) with rfl | rfl <;> decide)
    (by decide)

end Gateway
